import Mathlib

/-!
Verification of the CSP guarded-alternation engine specification against the
repository `dnerdy/csp`.

The repository's single source file, `src/csp.go`, is a commentary on Hoare's
CSP paper: most of its functions are illustrative Go snippets.  The alternation
engine itself (Guard, GuardSet, `evaluate`, `repeat`, the synchronous input
source with `tryReceive`/`write`/`close`) is described by the specification but
is not present under `src/`; those parts are modelled here from the
specification's words, as marked on each definition.  The functions
`assignmentExamples` and `parallel` are real code in `src/csp.go` and are
embedded from the source.
-/

namespace CSP

/-- Modelled from the spec: the tri-state status of a synchronous input source
(missing from src/): an explicit state machine with states open-no-writer,
open-writer-waiting (carrying the waiting writer's value), and closed.
Channel values are modelled as natural numbers. -/
inductive SourceStatus where
  | openNoWriter : SourceStatus
  | writerWaiting : Nat → SourceStatus
  | closed : SourceStatus
deriving DecidableEq, Repr

/-- Modelled from the spec: `tryReceive() -> (value, ok)` (missing from src/).
Non-blocking (a total function of the source state): `ok = true` only if a
writer is present right now, in which case its value is consumed and the source
returns to open-no-writer; with no waiting writer it returns `ok = false`
immediately; on a closed source it returns `ok = false` and the source stays
closed.  The result is (value, ok, post-state). -/
def tryReceive : SourceStatus → Option Nat × Bool × SourceStatus
  | .openNoWriter => (none, false, .openNoWriter)
  | .writerWaiting v => (some v, true, .openNoWriter)
  | .closed => (none, false, .closed)

/-- Error raised on a contract violation of the input-source API. -/
inductive WriteError where
  | closedSourceError : WriteError
deriving DecidableEq, Repr

/-- Modelled from the spec: writing to an input source (missing from src/).
Writing to a closed source fails fast with `ClosedSourceError` (a
distinguishable failure, never a silent no-op, and the value is not delivered);
writing to an open source leaves the writer's value waiting for rendezvous. -/
def write (st : SourceStatus) (v : Nat) : Except WriteError SourceStatus :=
  match st with
  | .closed => .error .closedSourceError
  | _ => .ok (.writerWaiting v)

/-- Modelled from the spec: `close()` (missing from src/).  Closing is one-way
and idempotent: from any state the source becomes closed. -/
def close : SourceStatus → SourceStatus := fun _ => .closed

/-- The operations of the input-source API that change a source's state,
used to express that closing is permanent across any later activity. -/
inductive SourceOp where
  | opTryReceive : SourceOp
  | opClose : SourceOp
  | opWrite : Nat → SourceOp
deriving DecidableEq, Repr

/-- Apply one input-source operation to a source's state (a failed write
leaves the state unchanged). -/
def applyOp : SourceOp → SourceStatus → SourceStatus
  | .opTryReceive, st => (tryReceive st).2.2
  | .opClose, st => close st
  | .opWrite v, st =>
    match write st v with
    | .ok st' => st'
    | .error _ => st

/-- Apply a sequence of input-source operations, left to right. -/
def applyOps (ops : List SourceOp) (st : SourceStatus) : SourceStatus :=
  ops.foldl (fun s op => applyOp op s) st

/-- Modelled from the spec: a Guard (missing from src/): a precondition
evaluated fresh on every attempt (it may read and update the shared mutable
state `σ`), an optional input source, and an action invoked with the received
value (or no value) when the Guard is selected. -/
structure Guard (σ : Type) where
  precondition : σ → Bool × σ
  input : Option SourceStatus
  action : Option Nat → σ → σ

/-- Modelled from the spec: a GuardSet (missing from src/): an ordered
sequence of Guards evaluated together in one alternation attempt. -/
abbrev GuardSet (σ : Type) := List (Guard σ)

/-- Modelled from the spec: the alternation outcome (missing from src/):
either `Selected(index, value?)` or `Exhausted`. -/
inductive Outcome where
  | Selected : Nat → Option Nat → Outcome
  | Exhausted : Outcome
deriving DecidableEq, Repr

/-- Modelled from the spec: steps 1-2 of the evaluate algorithm for one Guard
(missing from src/): evaluate the precondition; if false the Guard is not
viable; if true and there is no input, the Guard is immediately viable with no
value; if true and there is an input, the Guard is viable exactly when
`tryReceive` yields a value.  Returns (viable, received value, state after the
precondition's side effects). -/
def guardViable {σ : Type} (g : Guard σ) (s : σ) : Bool × Option Nat × σ :=
  match g.precondition s with
  | (false, s') => (false, none, s')
  | (true, s') =>
    match g.input with
    | none => (true, none, s')
    | some src => ((tryReceive src).2.1, (tryReceive src).1, s')

/-- Modelled from the spec: step 4 of the evaluate algorithm (missing from
src/): collect the indices found viable, in order, each paired with its
received value and its Guard, threading the preconditions' state effects
left to right.  `n` is the index of the first Guard of the list. -/
def collectViable {σ : Type} : List (Guard σ) → Nat → σ → List (Nat × Option Nat × Guard σ) × σ
  | [], _, s => ([], s)
  | g :: rest, n, s =>
    match guardViable g s with
    | (ok, v, s') =>
      match collectViable rest (n + 1) s' with
      | (tail, s'') => (if ok then (n, v, g) :: tail else tail, s'')

/-- The viable entries of a GuardSet in state `s` (index, value, Guard). -/
def viableList {σ : Type} (gs : GuardSet σ) (s : σ) : List (Nat × Option Nat × Guard σ) :=
  (collectViable gs 0 s).1

/-- Modelled from the spec: `evaluate(guardSet) -> Outcome` (missing from
src/).  If no Guard is viable, return `Exhausted`; otherwise pick one viable
index uniformly at random and run its action.  The randomness is supplied
explicitly as `r`: the selected entry is the `(r mod k)`-th of the `k` viable
entries, so a uniformly random `r` gives each viable Guard equal probability. -/
def evaluate {σ : Type} (gs : GuardSet σ) (r : Nat) (s : σ) : Outcome × σ :=
  match (viableList gs s)[r % (viableList gs s).length]? with
  | none => (.Exhausted, (collectViable gs 0 s).2)
  | some (i, v, g) => (.Selected i v, g.action v (collectViable gs 0 s).2)

/-- The index selected by one evaluation attempt, if any. -/
def selIndex {σ : Type} (gs : GuardSet σ) (r : Nat) (s : σ) : Option Nat :=
  match (evaluate gs r s).1 with
  | .Selected i _ => some i
  | .Exhausted => none

/-- Modelled from the spec: `repeat(guardSetFactory)` (missing from src/).
Repeatedly build a fresh GuardSet from the current state and call `evaluate`;
loop on `Selected`, terminate on `Exhausted`.  `rs` supplies the random choice
for each attempt, `fuel` bounds the recursion (the driver itself is an
unbounded loop), and the counter argument numbers the attempts; on termination
the result is the total number of `evaluate` calls made, paired with the final
state.  `none` means the fuel ran out before exhaustion. -/
def repeatDriver {σ : Type} (factory : σ → GuardSet σ) (rs : Nat → Nat) :
    Nat → Nat → σ → Option (Nat × σ)
  | 0, _, _ => none
  | fuel + 1, n, s =>
    match evaluate (factory s) (rs n) s with
    | (.Exhausted, s') => some (n + 1, s')
    | (.Selected _ _, s') => repeatDriver factory rs fuel (n + 1) s'

/-- Modelled from the spec: left-to-right short-circuit conjunction of the
boolean sub-expressions of one precondition (missing from src/): the first
false sub-expression makes the whole precondition false and no later
sub-expression is evaluated.  Each sub-expression may read and update the
shared state, so an uninvoked sub-expression leaves no effect. -/
def conj {σ : Type} : List (σ → Bool × σ) → σ → Bool × σ
  | [], s => (true, s)
  | e :: rest, s =>
    match e s with
    | (false, s') => (false, s')
    | (true, s') => conj rest s'

/-- A Guard over state `Nat` that is always viable: precondition `true`,
no input source, action the identity.  Test fixture for the theorems below. -/
def alwaysTrueGuard : Guard Nat :=
  ⟨fun s => (true, s), none, fun _ s => s⟩

/-- A GuardSet with exactly two always-viable Guards and no input sources,
as in the spec's fairness property. -/
def twoAlwaysViable : GuardSet Nat := [alwaysTrueGuard, alwaysTrueGuard]

/-- A Guard whose precondition is always true but whose input source is
closed.  Test fixture. -/
def closedInputGuard : Guard Nat :=
  ⟨fun s => (true, s), some SourceStatus.closed, fun _ s => s⟩

/-- The guardSetFactory of the spec's repetition-termination property: a
single Guard, no input, whose precondition is true exactly while the counter
state is below 3, and whose action increments the counter.  Its precondition
is true for the first 3 attempts and false thereafter. -/
def counterFactory : Nat → GuardSet Nat :=
  fun _ => [⟨fun t => (decide (t < 3), t), none, fun _ t => t + 1⟩]

/-- Embedded from src/csp.go (assignmentExamples): the struct type
`cons struct \x7b left, right int \x7d`. -/
structure cons where
  left : Int
  right : Int
deriving DecidableEq, Repr

/-- Embedded from src/csp.go (assignmentExamples): a Go `any` value together
with its dynamic type, which in `assignmentExamples` is either the struct type
`has` or the struct type `insert`, each holding one int field `n`. -/
inductive AnyVal where
  | hasVal : Int → AnyVal
  | insertVal : Int → AnyVal
deriving DecidableEq, Repr

/-- Embedded from src/csp.go line 102: the type assertion `rhs.(insert)`.
In Go a single-valued type assertion succeeds exactly when the dynamic type of
the interface value is the asserted type, and panics otherwise. -/
def assertInsert (v : AnyVal) : Except String AnyVal :=
  match v with
  | .insertVal n => .ok (.insertVal n)
  | .hasVal _ => .error "interface conversion: any is csp.has, not csp.insert"

/-- The package-level variables read and written by `assignmentExamples`
(src/csp.go lines 329-336): `x`, `y`, `left`, `right` are ints and `lhs` is an
`any`, recorded here as `none` until something is assigned to it. -/
structure AsgState where
  x : Int
  y : Int
  left : Int
  right : Int
  lhs : Option AnyVal
deriving DecidableEq, Repr

/-- Embedded from src/csp.go lines 65-103: `assignmentExamples` runs
`x = x + 1`, the simultaneous swap `x, y = y, x`, builds `x_ := cons\x7bleft,
right\x7d`, copies it to `result` and projects its fields back into `left` and
`right`, then sets `rhs` to a value of dynamic type `has` and executes
`lhs = rhs.(insert)`; the assignment to `lhs` completes only if the type
assertion succeeds. -/
def assignmentExamples (st : AsgState) : Except String AsgState :=
  let st1 : AsgState := { st with x := st.x + 1 }
  let st2 : AsgState := { st1 with x := st1.y, y := st1.x }
  let x_ : cons := ⟨st2.left, st2.right⟩
  let result : cons := x_
  let st3 : AsgState := { st2 with left := result.left, right := result.right }
  let rhs : AnyVal := AnyVal.hasVal 1
  match assertInsert rhs with
  | .error e => .error e
  | .ok v => .ok { st3 with lhs := some v }

/-- The two communications `parallel` would start: the card-reader receive and
the line-printer send. -/
inductive CommEvent where
  | cardReaderReceive : CommEvent
  | linePrinterSend : CommEvent
deriving DecidableEq, Repr

/-- Modelled from the documented behavior of the external Go packages
`context` and `golang.org/x/sync/errgroup` used by src/csp.go:
`errgroup.WithContext(parent)` derives its context via `context.WithCancel`,
which panics with "cannot create context from nil Context" when the parent
context is nil.  A nil `context.Context` is modelled as `none`. -/
def errgroupWithContext (parent : Option Unit) : Except String (Unit × Unit) :=
  match parent with
  | none => Except.error "cannot create context from nil Context"
  | some ctx => Except.ok ((), ctx)

/-- Embedded from src/csp.go lines 42-56: `parallel` declares an uninitialized
(nil) `context.Context`, calls `errgroup.WithContext` on it, and only in case
of success starts the two communicating goroutines and returns `g.Wait()`'s
error value.  The result records which communications were started and the
returned error value (`none` for a nil error); a panic is the `Except.error`
case. -/
def parallel : Except String (List CommEvent × Option String) :=
  let ctx : Option Unit := none
  match errgroupWithContext ctx with
  | .error e => .error e
  | .ok _ => .ok ([CommEvent.cardReaderReceive, CommEvent.linePrinterSend], none)

/- ------------------------------------------------------------------
   Helper lemmas about viability collection and selection.
   ------------------------------------------------------------------ -/

lemma guardViable_ok_input {σ : Type} {g : Guard σ} {s : σ} {v : Option Nat} {s' : σ}
    (h : guardViable g s = (true, v, s')) :
    g.input = none ∨ ∃ w, g.input = some (SourceStatus.writerWaiting w) := by
  rcases hpre : g.precondition s with ⟨b, t⟩
  cases b with
  | false => simp [guardViable, hpre] at h
  | true =>
    cases hin : g.input with
    | none => exact Or.inl rfl
    | some src =>
      cases src with
      | openNoWriter => simp [guardViable, hpre, hin, tryReceive] at h
      | writerWaiting w => exact Or.inr ⟨w, rfl⟩
      | closed => simp [guardViable, hpre, hin, tryReceive] at h

lemma guardViable_closed {σ : Type} {g : Guard σ} (s : σ)
    (h : g.input = some SourceStatus.closed) : (guardViable g s).1 = false := by
  rcases hpre : g.precondition s with ⟨b, t⟩
  cases b <;> simp [guardViable, hpre, h, tryReceive]

lemma collectViable_mem {σ : Type} (gs : List (Guard σ)) :
    ∀ (n : Nat) (s : σ) (p : Nat × Option Nat × Guard σ),
      p ∈ (collectViable gs n s).1 →
      n ≤ p.1 ∧ gs[p.1 - n]? = some p.2.2 ∧
        (p.2.2.input = none ∨ ∃ w, p.2.2.input = some (SourceStatus.writerWaiting w)) := by
  induction gs with
  | nil => intro n s p hp; simp [collectViable] at hp
  | cons g rest ih =>
    intro n s p hp
    rcases hg : guardViable g s with ⟨ok, v, s'⟩
    rcases hc : collectViable rest (n + 1) s' with ⟨tail, s''⟩
    simp only [collectViable, hg, hc] at hp
    cases ok with
    | false =>
      simp at hp
      rcases ih (n + 1) s' p (by rw [hc]; exact hp) with ⟨h1, h2, h3⟩
      refine ⟨by omega, ?_, h3⟩
      have hn : p.1 - n = (p.1 - (n + 1)) + 1 := by omega
      rw [hn, List.getElem?_cons_succ]
      exact h2
    | true =>
      simp at hp
      rcases hp with hEq | hTail
      · subst hEq
        refine ⟨Nat.le_refl n, ?_, guardViable_ok_input hg⟩
        simp
      · rcases ih (n + 1) s' p (by rw [hc]; exact hTail) with ⟨h1, h2, h3⟩
        refine ⟨by omega, ?_, h3⟩
        have hn : p.1 - n = (p.1 - (n + 1)) + 1 := by omega
        rw [hn, List.getElem?_cons_succ]
        exact h2

lemma collectViable_pairwise {σ : Type} (gs : List (Guard σ)) :
    ∀ (n : Nat) (s : σ),
      (collectViable gs n s).1.Pairwise (fun a b => a.1 < b.1) := by
  induction gs with
  | nil => intro n s; simp [collectViable]
  | cons g rest ih =>
    intro n s
    rcases hg : guardViable g s with ⟨ok, v, s'⟩
    rcases hc : collectViable rest (n + 1) s' with ⟨tail, s''⟩
    have htail : tail.Pairwise (fun a b => a.1 < b.1) := by
      have h := ih (n + 1) s'
      rwa [hc] at h
    simp only [collectViable, hg, hc]
    cases ok with
    | false => simpa using htail
    | true =>
      rw [if_pos rfl]
      refine List.Pairwise.cons ?_ htail
      intro q hq
      have hm := collectViable_mem rest (n + 1) s' q (by rw [hc]; exact hq)
      exact lt_of_lt_of_le (Nat.lt_succ_self n) hm.1

lemma collectViable_all_closed {σ : Type} (gs : List (Guard σ)) :
    ∀ (n : Nat) (s : σ), (∀ g ∈ gs, g.input = some SourceStatus.closed) →
      (collectViable gs n s).1 = [] := by
  induction gs with
  | nil => intro n s _; simp [collectViable]
  | cons g rest ih =>
    intro n s hall
    rcases hg : guardViable g s with ⟨ok, v, s'⟩
    rcases hc : collectViable rest (n + 1) s' with ⟨tail, s''⟩
    have hok : ok = false := by
      have h := guardViable_closed (g := g) s (hall g (by simp))
      rw [hg] at h
      exact h
    subst hok
    have htail : tail = [] := by
      have h := ih (n + 1) s' (fun g' hg' => hall g' (by simp [hg']))
      rwa [hc] at h
    simp [collectViable, hg, hc, htail]

lemma selIndex_eq {σ : Type} (gs : GuardSet σ) (r : Nat) (s : σ) :
    selIndex gs r s =
      ((viableList gs s)[r % (viableList gs s).length]?).map (fun p => p.1) := by
  cases hget : (viableList gs s)[r % (viableList gs s).length]? with
  | none => simp [selIndex, evaluate, hget]
  | some q => rcases q with ⟨i, v, g⟩; simp [selIndex, evaluate, hget]

lemma evaluate_of_viable_nil {σ : Type} {gs : GuardSet σ} {r : Nat} {s : σ}
    (h : viableList gs s = []) : (evaluate gs r s).1 = Outcome.Exhausted := by
  simp [evaluate, h]

lemma evaluate_selected_mem {σ : Type} {gs : GuardSet σ} {r : Nat} {s : σ} {i : Nat}
    {v : Option Nat} (h : (evaluate gs r s).1 = Outcome.Selected i v) :
    ∃ g, (i, v, g) ∈ viableList gs s := by
  cases hget : (viableList gs s)[r % (viableList gs s).length]? with
  | none => simp [evaluate, hget] at h
  | some q =>
    rcases q with ⟨i', v', g'⟩
    simp [evaluate, hget] at h
    rcases h with ⟨hi, hv⟩
    subst hi; subst hv
    exact ⟨g', List.getElem?_mem hget⟩

lemma viable_fst_inj {σ : Type} (gs : GuardSet σ) (s : σ) (a b : Nat)
    (ha : a < (viableList gs s).length) (hb : b < (viableList gs s).length)
    (h : ((viableList gs s)[a]).1 = ((viableList gs s)[b]).1) : a = b := by
  have hpw : (viableList gs s).Pairwise (fun x y => x.1 < y.1) :=
    collectViable_pairwise gs 0 s
  rw [List.pairwise_iff_getElem] at hpw
  rcases lt_trichotomy a b with hab | hab | hab
  · exact absurd h (Nat.ne_of_lt (hpw a b ha hb hab))
  · exact hab
  · exact absurd h.symm (Nat.ne_of_lt (hpw b a hb ha hab))

/- ------------------------------------------------------------------
   Claim theorems.
   ------------------------------------------------------------------ -/

/-- C1: when two or more Guards are simultaneously viable, `evaluate` selects
among the viable indices uniformly at random: for every viable entry there is
an execution (a random seed) selecting its index, and among the equally likely
seeds `0, ..., k-1` (`k` the number of viable entries) each viable index is
selected exactly once — equal probability, independent of position, and no
fixed first-match-wins choice. -/
theorem evaluate_uniform_fair {σ : Type} (gs : GuardSet σ) (s : σ)
    (htwo : 2 ≤ (viableList gs s).length) (p : Nat × Option Nat × Guard σ)
    (hp : p ∈ viableList gs s) :
    (∃ r, selIndex gs r s = some p.1) ∧
      ((Finset.range (viableList gs s).length).filter
        (fun r => selIndex gs r s = some p.1)).card = 1 := by
  rcases List.mem_iff_getElem?.mp hp with ⟨j, hj⟩
  have hjlt : j < (viableList gs s).length :=
    (List.getElem?_eq_some_iff.mp hj).1
  have hsel : ∀ (r : Nat) (hr : r < (viableList gs s).length),
      selIndex gs r s = some ((viableList gs s)[r]).1 := by
    intro r hr
    rw [selIndex_eq, Nat.mod_eq_of_lt hr, List.getElem?_eq_getElem hr]
    rfl
  have hjth : (viableList gs s)[j] = p := by
    have h := List.getElem?_eq_getElem hjlt
    rw [hj] at h
    exact (Option.some.injEq _ _).mp h.symm
  constructor
  · exact ⟨j, by rw [hsel j hjlt, hjth]⟩
  · have hfilter : (Finset.range (viableList gs s).length).filter
        (fun r => selIndex gs r s = some p.1) = {j} := by
      apply Finset.ext
      intro r
      simp only [Finset.mem_filter, Finset.mem_range, Finset.mem_singleton]
      constructor
      · rintro ⟨hr, hselr⟩
        rw [hsel r hr] at hselr
        have hfst : ((viableList gs s)[r]).1 = ((viableList gs s)[j]).1 := by
          rw [hjth]
          exact (Option.some.injEq _ _).mp hselr
        exact viable_fst_inj gs s r j hr hjlt hfst
      · rintro rfl
        exact ⟨hjlt, by rw [hsel _ hjlt, hjth]⟩
    rw [hfilter]
    simp

/-- C1 witness: on the GuardSet with exactly two always-viable Guards, each of
the two indices is selected by some seed, and each is selected by exactly one
of the two equally likely seeds. -/
theorem evaluate_uniform_fair_witness :
    ((∃ r, selIndex twoAlwaysViable r 0 = some 0) ∧
      ((Finset.range (viableList twoAlwaysViable 0).length).filter
        (fun r => selIndex twoAlwaysViable r 0 = some 0)).card = 1) ∧
    ((∃ r, selIndex twoAlwaysViable r 0 = some 1) ∧
      ((Finset.range (viableList twoAlwaysViable 0).length).filter
        (fun r => selIndex twoAlwaysViable r 0 = some 1)).card = 1) :=
  ⟨evaluate_uniform_fair twoAlwaysViable 0 (Nat.le_refl 2) (0, none, alwaysTrueGuard)
      (List.mem_cons_self _ _),
    evaluate_uniform_fair twoAlwaysViable 0 (Nat.le_refl 2) (1, none, alwaysTrueGuard)
      (List.mem_cons_of_mem _ (List.mem_cons_self _ _))⟩

/-- C2: closing is permanent (any sequence of later source operations leaves a
closed source closed); a Guard whose input source is closed — also after any
number of later operations — is never selected by `evaluate`, regardless of
its precondition; and if every Guard's input source is closed, `evaluate`
returns `Exhausted` even when all preconditions are true. -/
theorem closed_source_never_selected {σ : Type} :
    (∀ ops : List SourceOp, applyOps ops SourceStatus.closed = SourceStatus.closed) ∧
    (∀ (ops : List SourceOp) (gs : GuardSet σ) (r : Nat) (s : σ) (i : Nat)
        (v : Option Nat) (g : Guard σ),
        gs[i]? = some g → g.input = some (applyOps ops SourceStatus.closed) →
        (evaluate gs r s).1 ≠ Outcome.Selected i v) ∧
    (∀ (gs : GuardSet σ) (r : Nat) (s : σ),
        (∀ g ∈ gs, g.input = some SourceStatus.closed) →
        (evaluate gs r s).1 = Outcome.Exhausted) := by
  have hops : ∀ ops : List SourceOp, applyOps ops SourceStatus.closed = SourceStatus.closed := by
    intro ops
    induction ops with
    | nil => rfl
    | cons op rest ih =>
      have hone : applyOp op SourceStatus.closed = SourceStatus.closed := by
        cases op <;> rfl
      calc applyOps (op :: rest) SourceStatus.closed
          = applyOps rest (applyOp op SourceStatus.closed) := rfl
        _ = applyOps rest SourceStatus.closed := by rw [hone]
        _ = SourceStatus.closed := ih
  refine ⟨hops, ?_, ?_⟩
  · intro ops gs r s i v g hget hinput hsel
    rw [hops ops] at hinput
    rcases evaluate_selected_mem hsel with ⟨g', hmem⟩
    have hm := collectViable_mem gs 0 s (i, v, g') hmem
    rcases hm with ⟨-, hget', hopen⟩
    rw [Nat.sub_zero] at hget'
    have hg : g' = g := by
      rw [hget] at hget'
      exact (Option.some.injEq _ _).mp hget'.symm
    subst hg
    rcases hopen with hnone | ⟨w, hw⟩
    · rw [hinput] at hnone; exact Option.noConfusion hnone
    · rw [hinput] at hw
      simp at hw
  · intro gs r s hall
    exact evaluate_of_viable_nil (collectViable_all_closed gs 0 s hall)

/-- C2 witness: a single always-true Guard with a closed input is not selected
and the evaluation is exhausted. -/
theorem closed_source_never_selected_witness :
    (evaluate [closedInputGuard] 0 0).1 ≠ Outcome.Selected 0 none ∧
      (evaluate [closedInputGuard] 0 0).1 = Outcome.Exhausted :=
  ⟨(closed_source_never_selected (σ := Nat)).2.1 [] [closedInputGuard] 0 0 0 none
      closedInputGuard rfl rfl,
    (closed_source_never_selected (σ := Nat)).2.2 [closedInputGuard] 0 0
      (fun g hg => by simp at hg; subst hg; rfl)⟩

/-- C3: on the empty GuardSet, `evaluate` always returns `Exhausted` — it is a
total function returning the ordinary `Exhausted` outcome (no error type, no
blocking in the model), and it leaves the state untouched (no action runs). -/
theorem evaluate_empty_exhausted {σ : Type} (r : Nat) (s : σ) :
    evaluate ([] : GuardSet σ) r s = (Outcome.Exhausted, s) := rfl

/-- C4: the repetition driver loops exactly while `evaluate` returns
`Selected` and returns exactly when `evaluate` first returns `Exhausted`
(first two conjuncts: one unfolding step of the loop in each case); and for
the factory with a single Guard whose precondition is true for the first 3
attempts and false thereafter, it makes exactly 4 `evaluate` calls
(3 selections then 1 exhaustion) and terminates, for every random seed
sequence. -/
theorem repeat_until_exhausted :
    (∀ {σ : Type} (factory : σ → GuardSet σ) (rs : Nat → Nat) (fuel n : Nat) (s : σ),
        (evaluate (factory s) (rs n) s).1 = Outcome.Exhausted →
        repeatDriver factory rs (fuel + 1) n s =
          some (n + 1, (evaluate (factory s) (rs n) s).2)) ∧
    (∀ {σ : Type} (factory : σ → GuardSet σ) (rs : Nat → Nat) (fuel n : Nat) (s : σ)
        (i : Nat) (v : Option Nat),
        (evaluate (factory s) (rs n) s).1 = Outcome.Selected i v →
        repeatDriver factory rs (fuel + 1) n s =
          repeatDriver factory rs fuel (n + 1) (evaluate (factory s) (rs n) s).2) ∧
    (∀ rs : Nat → Nat, repeatDriver counterFactory rs 10 0 0 = some (4, 3)) := by
  refine ⟨?_, ?_, ?_⟩
  · intro σ factory rs fuel n s h
    rcases he : evaluate (factory s) (rs n) s with ⟨o, s'⟩
    rw [he] at h
    simp at h
    subst h
    simp [repeatDriver, he]
  · intro σ factory rs fuel n s i v h
    rcases he : evaluate (factory s) (rs n) s with ⟨o, s'⟩
    rw [he] at h
    simp at h
    subst h
    simp [repeatDriver, he]
  · intro rs
    simp [repeatDriver, evaluate, viableList, collectViable, guardViable, counterFactory,
      Nat.mod_one]

/-- C4 witness: the counter factory terminates after exactly 4 `evaluate`
calls; an exhausted step returns, a selected step loops. -/
theorem repeat_until_exhausted_witness :
    repeatDriver counterFactory (fun _ => 0) 10 0 0 = some (4, 3) ∧
      repeatDriver counterFactory (fun _ => 0) 1 3 3 = some (4, 3) ∧
      repeatDriver counterFactory (fun _ => 0) 2 0 0 =
        repeatDriver counterFactory (fun _ => 0) 1 1 1 :=
  ⟨repeat_until_exhausted.2.2 (fun _ => 0),
    repeat_until_exhausted.1 counterFactory (fun _ => 0) 0 3 3 rfl,
    repeat_until_exhausted.2.1 counterFactory (fun _ => 0) 1 0 0 0 none rfl⟩

/-- C5: precondition sub-expressions are evaluated left-to-right with
short-circuiting: if the first sub-expression `A` returns false, the whole
conjunction is false with only `A`'s side effect applied, and the result does
not depend on the second sub-expression `B` at all (so `B` is never
invoked). -/
theorem conj_short_circuit {σ : Type} (A B : σ → Bool × σ) (rest : List (σ → Bool × σ))
    (s : σ) (h : (A s).1 = false) :
    conj (A :: B :: rest) s = (false, (A s).2) ∧
      ∀ B' : σ → Bool × σ, conj (A :: B :: rest) s = conj (A :: B' :: rest) s := by
  rcases hA : A s with ⟨b, s'⟩
  rw [hA] at h
  simp at h
  subst h
  constructor
  · simp [conj, hA]
  · intro B'
    simp [conj, hA]

/-- C5 witness: with `A` returning false and bumping a call counter, the
conjunction is false, only `A`'s effect is applied, and the result is the
same for every `B`. -/
theorem conj_short_circuit_witness :
    conj [fun n : Nat => (false, n + 1), fun n : Nat => (true, n * 2)] 0 = (false, 1) ∧
      ∀ B' : Nat → Bool × Nat,
        conj [fun n : Nat => (false, n + 1), fun n : Nat => (true, n * 2)] 0 =
          conj [fun n : Nat => (false, n + 1), B'] 0 :=
  conj_short_circuit (fun n => (false, n + 1)) (fun n => (true, n * 2)) [] 0 rfl

/-- C6: `tryReceive` is a total, non-blocking function of the source state:
it reports `ok = true` exactly when a writer is present at that instant (and
then yields that writer's value); with no waiting writer it returns
`ok = false` immediately; and on a closed source it returns `ok = false`,
leaving the source closed — no panic, no blocking. -/
theorem tryReceive_nonblocking :
    (∀ st : SourceStatus,
        ((tryReceive st).2.1 = true ↔ ∃ w, st = SourceStatus.writerWaiting w)) ∧
      (∀ w, tryReceive (SourceStatus.writerWaiting w) =
        (some w, true, SourceStatus.openNoWriter)) ∧
      tryReceive SourceStatus.openNoWriter = (none, false, SourceStatus.openNoWriter) ∧
      tryReceive SourceStatus.closed = (none, false, SourceStatus.closed) := by
  refine ⟨?_, fun w => rfl, rfl, rfl⟩
  intro st
  cases st <;> simp [tryReceive]

/-- C7: writing to a closed source fails fast with the distinguishable
`ClosedSourceError` — and that failure occurs exactly on closed sources, so it
is never a silent no-op and the value is never delivered — while a read
(`tryReceive`) on a closed source does not raise this failure: it returns
normally with `ok = false`. -/
theorem write_closed_fails :
    (∀ v, write SourceStatus.closed v = Except.error WriteError.closedSourceError) ∧
      (∀ (st : SourceStatus) (v : Nat),
        write st v = Except.error WriteError.closedSourceError ↔ st = SourceStatus.closed) ∧
      tryReceive SourceStatus.closed = (none, false, SourceStatus.closed) := by
  refine ⟨fun v => rfl, ?_, rfl⟩
  intro st v
  cases st <;> simp [write]

/-- C8: a Guard constructed without an input source is always input-ready:
its viability equals its precondition's value with no received value, and
whenever the precondition is true, `evaluate` on that Guard selects it
immediately with no value passed to its action. -/
theorem no_input_always_ready {σ : Type} (g : Guard σ) (s : σ) (h : g.input = none) :
    guardViable g s = ((g.precondition s).1, none, (g.precondition s).2) ∧
      ((g.precondition s).1 = true →
        ∀ r : Nat, (evaluate [g] r s).1 = Outcome.Selected 0 none) := by
  rcases hpre : g.precondition s with ⟨b, t⟩
  have hgv : guardViable g s = (b, none, t) := by
    cases b <;> simp [guardViable, hpre, h]
  constructor
  · rw [hgv]
  · intro hb r
    simp at hb
    subst hb
    have hvl : viableList [g] s = [(0, none, g)] := by
      simp [viableList, collectViable, hgv]
    simp [evaluate, hvl, Nat.mod_one]

/-- C8 witness: the input-free always-true Guard is viable with no value and
is selected with no value. -/
theorem no_input_always_ready_witness :
    guardViable alwaysTrueGuard 5 = (true, none, 5) ∧
      (evaluate [alwaysTrueGuard] 7 5).1 = Outcome.Selected 0 none :=
  ⟨(no_input_always_ready alwaysTrueGuard 5 rfl).1,
    (no_input_always_ready alwaysTrueGuard 5 rfl).2 rfl 7⟩

/-- C9: every call to `assignmentExamples` panics and never returns normally:
its final statement is the type assertion `rhs.(insert)` on a value of dynamic
type `has`, which always fails, so the assignment to `lhs` is never
completed (no `.ok` result exists for any starting state). -/
theorem assignmentExamples_panics (st : AsgState) :
    assignmentExamples st =
      Except.error "interface conversion: any is csp.has, not csp.insert" := rfl

/-- C10: every call to `parallel` panics before either communication runs: it
passes a nil parent context to `errgroup.WithContext`, so neither the
card-reader receive nor the line-printer send is started and `parallel` never
returns an error value. -/
theorem parallel_panics :
    parallel = Except.error "cannot create context from nil Context" := rfl

end CSP
